import Mathlib

/-!
# Feature-Driven XIDS — verification of the inference-and-attribution serving core

Shallow embedding of the serving pipeline of `backend/app/services/`
(`model_loader.py`, `prediction_service.py`, `explanation_service.py`).

Modelling conventions:
* Python floats are embedded as exact rationals `ℚ`.
* Python exceptions are embedded as `Except PyErr`; each `raise ValueError(...)`
  site of the source gets a distinct constructor.
* The pickled artifacts (the sklearn classifier, `LabelEncoder`, `StandardScaler`
  and the SHAP `TreeExplainer`) are external objects the source only calls into;
  they are embedded as records of opaque-but-total functions over `ℚ`, with the
  behavioural facts the source relies on stated as explicit hypotheses.
* A `LabelEncoder` is its ordered `classes_` array, a `List String`;
  `inverse_transform([i])[0]` is positional lookup.
* A `StandardScaler` holds per-feature center/scale and transforms element-wise,
  `x_i ↦ (x_i - mean_i) / scale_i`, which is `sklearn.StandardScaler.transform`.
-/

/-- Exception kinds raised on the embedded code paths.  `notLoaded` stands for the
`ValueError("... not loaded ...")` raised by the `ModelLoader` accessors,
`valueError` for `list.index` failure, `indexError` for positional lookup failure,
`typeError` for `float()` on a non-size-1 array, and `explainerMissing` for the
`ValueError` of `ensure_explainer_loaded`. -/
inductive PyErr where
  | notLoaded
  | valueError
  | indexError
  | typeError
  | explainerMissing
  deriving DecidableEq, Repr

/-- A fitted `StandardScaler`: per-feature center (`mean_`) and scale (`scale_`). -/
structure Scaler where
  mean : List ℚ
  scale : List ℚ

/-- `scaler.transform` on one row: element-wise `(x_i - mean_i) / scale_i`. -/
def Scaler.transform (s : Scaler) (xs : List ℚ) : List ℚ :=
  List.zipWith (fun x ms => (x - ms.1) / ms.2) xs (s.mean.zip s.scale)

/-- The pickled classifier, as the functions the serving code calls on it:
`predict` (encoded class index of the single row), optionally `predict_proba`
(per-class probability vector for the row; `none` embeds a classifier without the
`predict_proba` attribute), and the raw per-class output score (the margin SHAP
explains; the serving code never calls it, it exists to state additivity). -/
structure Model where
  predictIdx : List ℚ → Nat
  predictProba : Option (List ℚ → List ℚ)
  rawScore : List ℚ → Nat → ℚ

/-- Contents of `saved_model.pkl`: `model_package['model']` and
`model_package.get('feature_columns', [])` (`none` embeds an absent key). -/
structure ModelPkg where
  model : Model
  feature_columns : Option (List String)

/-- Contents of `preprocessor.pkl`. -/
structure PreprocessorPkg where
  label_encoder : List String
  scaler : Scaler
  feature_columns : List String

/-- The mutable fields of the `ModelLoader` singleton. -/
structure LoaderState where
  _model : Option Model
  _preprocessor : Option PreprocessorPkg
  _feature_columns : Option (List String)
  _label_encoder : Option (List String)
  _scaler : Option Scaler

/-- The process-start state: nothing loaded (all class attributes `None`). -/
def initialState : LoaderState := ⟨none, none, none, none, none⟩

/-- `ModelLoader.load_model`: a no-op when a model is already cached, otherwise
stores the package's model and its `feature_columns` (defaulting to `[]`). -/
def load_model (s : LoaderState) (pkg : ModelPkg) : LoaderState :=
  if s._model.isSome then s
  else { s with _model := some pkg.model,
                _feature_columns := some (pkg.feature_columns.getD []) }

/-- Truthiness of `self._feature_columns` in `if not self._feature_columns:`
(`None` and `[]` are both falsy). -/
def feature_columns_falsy (s : LoaderState) : Bool :=
  match s._feature_columns with
  | none => true
  | some l => l.isEmpty

/-- `ModelLoader.load_preprocessor`: a no-op when already cached, otherwise stores
the package and its codec/scaler, and adopts its `feature_columns` only when the
present value is falsy. -/
def load_preprocessor (s : LoaderState) (pkg : PreprocessorPkg) : LoaderState :=
  if s._preprocessor.isSome then s
  else
    let s' : LoaderState :=
      { s with _preprocessor := some pkg,
               _label_encoder := some pkg.label_encoder,
               _scaler := some pkg.scaler }
    if feature_columns_falsy s' then { s' with _feature_columns := some pkg.feature_columns }
    else s'

/-- `ModelLoader.get_model`: `ValueError` when `_model is None`. -/
def get_model (s : LoaderState) : Except PyErr Model :=
  match s._model with
  | none => Except.error PyErr.notLoaded
  | some m => Except.ok m

/-- `ModelLoader.get_label_encoder`. -/
def get_label_encoder (s : LoaderState) : Except PyErr (List String) :=
  match s._label_encoder with
  | none => Except.error PyErr.notLoaded
  | some c => Except.ok c

/-- `ModelLoader.get_scaler`. -/
def get_scaler (s : LoaderState) : Except PyErr Scaler :=
  match s._scaler with
  | none => Except.error PyErr.notLoaded
  | some c => Except.ok c

/-- `ModelLoader.get_feature_columns`. -/
def get_feature_columns (s : LoaderState) : Except PyErr (List String) :=
  match s._feature_columns with
  | none => Except.error PyErr.notLoaded
  | some c => Except.ok c

/-- A request's raw input: the JSON `features` object, an insertion-ordered
name→value mapping with unique keys (a Python dict). -/
def FeatureRecord := List (String × ℚ)

/-- `PredictionService.prepare_features`.  The pandas steps
`DataFrame([features])` → zero-fill every expected column missing from the dict →
`feature_df[expected_features]` amount to: build, in schema order, the vector
whose entry for column `c` is the record's value for `c` or `0` when absent
(unknown record fields are thereby dropped); then apply the scaler. -/
def prepare_features (s : LoaderState) (features : FeatureRecord) :
    Except PyErr (List ℚ) := do
  let expected_features ← get_feature_columns s
  let reconciled := expected_features.map (fun c => ((features.lookup c).getD 0))
  let scaler ← get_scaler s
  pure (scaler.transform reconciled)

/-- `label_encoder.inverse_transform([idx])[0]`: positional decode of a class
index, failing on an index outside the codec's range. -/
def inverse_transform (classes : List String) (idx : Nat) : Except PyErr String :=
  match classes[idx]? with
  | some c => Except.ok c
  | none => Except.error PyErr.indexError

/-- Running maximum, the accumulator seeded with the first element. -/
def npMaxAux (x : ℚ) : List ℚ → ℚ
  | [] => x
  | y :: ys => npMaxAux (if x ≤ y then y else x) ys

/-- `np.max` over a vector: the greatest element, failing on an empty array. -/
def npMax (l : List ℚ) : Except PyErr ℚ :=
  match l with
  | [] => Except.error PyErr.valueError
  | x :: xs => Except.ok (npMaxAux x xs)

/-- `PredictionService.predict`: scale, classify, then — when the classifier has
`predict_proba` — take the max as confidence and zip the codec's ordered classes
with the probability vector; otherwise confidence `1.0` and an empty map.
Returns `(prediction, confidence, probabilities)`. -/
def predict (s : LoaderState) (features : FeatureRecord) :
    Except PyErr (String × ℚ × List (String × ℚ)) := do
  let X ← prepare_features s features
  let model ← get_model s
  let prediction_encoded := model.predictIdx X
  match model.predictProba with
  | some proba_fn => do
      let proba := proba_fn X
      let confidence ← npMax proba
      let class_names ← get_label_encoder s
      let probabilities := class_names.zip proba
      let label_encoder ← get_label_encoder s
      let prediction ← inverse_transform label_encoder prediction_encoded
      pure (prediction, confidence, probabilities)
  | none => do
      let label_encoder ← get_label_encoder s
      let prediction ← inverse_transform label_encoder prediction_encoded
      pure (prediction, (1 : ℚ), [])

/-- `PredictionService.batch_predict`: per-record `predict`, catching any
exception into the sentinel pair `("ERROR", 0.0)`. -/
def batch_predict (s : LoaderState) (features_list : List FeatureRecord) :
    List (String × ℚ) :=
  features_list.map (fun features =>
    match predict s features with
    | Except.ok r => (r.1, r.2.1)
    | Except.error _ => ("ERROR", (0 : ℚ)))

/-- `PredictionService._get_threat_level`. -/
def get_threat_level (prediction : String) (confidence : ℚ) : String :=
  if prediction = "BENIGN" then "NONE"
  else if 9/10 ≤ confidence then "CRITICAL"
  else if 7/10 ≤ confidence then "HIGH"
  else if 5/10 ≤ confidence then "MEDIUM"
  else "LOW"

/-- The shape of `explainer.shap_values(X)` for the single-row `X`: the
duck-typed `isinstance(shap_values, list)` branch of the source becomes a tagged
union — a multi-class explainer returns one contribution row per class, a
single-output explainer one row.  (The source's `shap_values_class[0]` peel of
the leading batch axis of a `(1, n)` array is folded in: each class's entry here
is already the row for the one input.) -/
inductive ShapOut where
  | perClass (vs : List (List ℚ))
  | single (v : List ℚ)

/-- The shape of `explainer.expected_value`: an `np.ndarray` of per-class base
values, or a scalar. -/
inductive BaseOut where
  | arr (bs : List ℚ)
  | scalar (b : ℚ)

/-- The SHAP `TreeExplainer` bound to the loaded classifier, as the two members
the serving code reads. -/
structure ShapExplainer where
  shap_values : List ℚ → ShapOut
  expected_value : BaseOut

/-- Python's `list.index`: the index of the first occurrence, `ValueError` when
the element is absent. -/
def list_index (classes : List String) (x : String) : Except PyErr Nat :=
  if x ∈ classes then Except.ok (classes.indexOf x) else Except.error PyErr.valueError

/-- `float(base_value_class)` on the single-output branch, where the expected
value may still be an array: a size-1 array converts, anything larger is a
`TypeError`. -/
def float_of_base : BaseOut → Except PyErr ℚ
  | BaseOut.scalar b => Except.ok b
  | BaseOut.arr [b] => Except.ok b
  | BaseOut.arr _ => Except.error PyErr.typeError

/-- Lines 90–98 of `explanation_service.py`: resolve the (contribution row,
base value) pair for the explained class.  On the multi-class branch the class
index is the codec's index of the decoded predicted label (`list.index`), and
both the contribution row and — when the base value is an array — the base entry
are selected at that index. -/
def select_class_slice (s : LoaderState) (sv : ShapOut) (base : BaseOut)
    (prediction : String) : Except PyErr (List ℚ × ℚ) :=
  match sv with
  | ShapOut.perClass vs => do
      let label_encoder ← get_label_encoder s
      let prediction_idx ← list_index label_encoder prediction
      let shap_values_class ←
        match vs[prediction_idx]? with
        | some v => Except.ok v
        | none => Except.error PyErr.indexError
      let base_value_class ←
        match base with
        | BaseOut.arr bs =>
            match bs[prediction_idx]? with
            | some b => Except.ok b
            | none => Except.error PyErr.indexError
        | BaseOut.scalar b => Except.ok b
      pure (shap_values_class, base_value_class)
  | ShapOut.single v => do
      let base_value_class ← float_of_base base
      pure (v, base_value_class)

/-- One attribution entry `{"feature": ..., "impact": ...}`. -/
abbrev Attr := String × ℚ

/-- Python's built-in `abs` on a number. -/
def ratAbs (q : ℚ) : ℚ := if q < 0 then -q else q

/-- The comparison under Python's stable `list.sort(key=lambda x: abs(impact),
reverse=True)`: `a` may precede `b` iff `|impact b| ≤ |impact a|`.  A stable sort
under this total preorder is exactly CPython's reverse sort (which reverses the
comparison, not the order of equal elements). -/
def absDesc (a b : Attr) : Prop := ratAbs b.2 ≤ ratAbs a.2

instance : DecidableRel absDesc :=
  fun a b => inferInstanceAs (Decidable (ratAbs b.2 ≤ ratAbs a.2))

instance : IsTotal Attr absDesc := ⟨fun a b => le_total (ratAbs b.2) (ratAbs a.2)⟩

instance : IsTrans Attr absDesc := ⟨fun _ _ _ h1 h2 => le_trans h2 h1⟩

/-- Python's `lst[:n]` for an `int` `n`: for `n ≥ 0` the first `n` elements, for
`n < 0` everything up to `max 0 (len + n)`. -/
def pyTake (l : List α) (n : Int) : List α :=
  if 0 ≤ n then l.take n.toNat else l.take (l.length - n.natAbs)

/-- The dictionary `explain_prediction` returns (`all_features` is the list after
the in-place sort). -/
structure ExplanationOut where
  prediction : String
  confidence : ℚ
  top_features : List Attr
  base_value : ℚ
  all_features : List Attr
  deriving DecidableEq, Repr

/-- `ExplanationService.explain_prediction`.  The service's `self.explainer` is
passed explicitly (`none` embeds a service whose explainer failed to initialize,
which `ensure_explainer_loaded` turns into a `ValueError`).  Pairing indexes the
contribution row at `i` for every `i < len(feature_names)`, so a row shorter than
the schema is an `IndexError`; a longer row's tail is unread — both are the
semantics of `names.zip row` under the length guard. -/
def explain_prediction (s : LoaderState) (explainer : Option ShapExplainer)
    (features : FeatureRecord) (top_n : Int) : Except PyErr ExplanationOut := do
  let ex ←
    match explainer with
    | some e => Except.ok e
    | none => Except.error PyErr.explainerMissing
  let X ← prepare_features s features
  let pcp ← predict s features
  let prediction := pcp.1
  let confidence := pcp.2.1
  let sv := ex.shap_values X
  let base := ex.expected_value
  let slice ← select_class_slice s sv base prediction
  let shap_values_flat := slice.1
  let base_value_class := slice.2
  let feature_names ← get_feature_columns s
  if feature_names.length ≤ shap_values_flat.length then
    let feature_importance := feature_names.zip shap_values_flat
    let sorted_importance := List.insertionSort absDesc feature_importance
    let top_features := pyTake sorted_importance top_n
    pure { prediction := prediction, confidence := confidence,
           top_features := top_features, base_value := base_value_class,
           all_features := sorted_importance }
  else throw PyErr.indexError

/-- The dictionary `explain_with_visualization_data` returns. -/
structure VizData where
  prediction : String
  confidence : ℚ
  feature_names : List String
  feature_impacts : List ℚ
  feature_values : List ℚ
  base_value : ℚ
  positive_features : List Attr
  negative_features : List Attr
  deriving DecidableEq, Repr

/-- `ExplanationService.explain_with_visualization_data`: a pure reshaping of
`explain_prediction`'s output (`features.get(name, 0)` recovers the caller's
unscaled value). -/
def explain_with_visualization_data (s : LoaderState)
    (explainer : Option ShapExplainer) (features : FeatureRecord) (top_n : Int) :
    Except PyErr VizData := do
  let explanation ← explain_prediction s explainer features top_n
  pure { prediction := explanation.prediction
         confidence := explanation.confidence
         feature_names := explanation.top_features.map (fun f => f.1)
         feature_impacts := explanation.top_features.map (fun f => f.2)
         feature_values :=
           explanation.top_features.map (fun f => (features.lookup f.1).getD 0)
         base_value := explanation.base_value
         positive_features := explanation.top_features.filter (fun f => 0 < f.2)
         negative_features := explanation.top_features.filter (fun f => f.2 < 0) }

instance {ε α : Type} [DecidableEq ε] [DecidableEq α] : DecidableEq (Except ε α)
  | Except.ok x, Except.ok y =>
      if h : x = y then isTrue (by rw [h]) else isFalse (by intro hh; cases hh; exact h rfl)
  | Except.ok _, Except.error _ => isFalse (by intro hh; cases hh)
  | Except.error _, Except.ok _ => isFalse (by intro hh; cases hh)
  | Except.error x, Except.error y =>
      if h : x = y then isTrue (by rw [h]) else isFalse (by intro hh; cases hh; exact h rfl)

/-- Whether a Python call returned normally (no exception escaped). -/
def exceptOk {ε α : Type} : Except ε α → Bool
  | Except.ok _ => true
  | Except.error _ => false

/-! ### A concrete deployment, used to instantiate the theorems below

A two-class ("BENIGN"/"DoS"), two-feature artifact whose classifier and
explainer are small exact functions.  The explainer is additive for the model's
raw scores: class 0 has `1/8 + (1/2 + 3/4) = 11/8` and class 1 has
`1/16 + (2 + 5/4) = 53/16`. -/

/-- An identity scaler over two features. -/
def exScaler : Scaler := ⟨[0, 0], [1, 1]⟩

def exClasses : List String := ["BENIGN", "DoS"]

def exCols : List String := ["f1", "f2"]

def exModel : Model :=
  { predictIdx := fun _ => 1
    predictProba := some (fun _ => [1/4, 3/4])
    rawScore := fun _ j => if j = 0 then 11/8 else 53/16 }

/-- `exModel` without a `predict_proba` attribute. -/
def exModelNoProba : Model :=
  { predictIdx := fun _ => 1
    predictProba := none
    rawScore := fun _ j => if j = 0 then 11/8 else 53/16 }

def exShap : ShapExplainer :=
  { shap_values := fun _ => ShapOut.perClass [[1/2, 3/4], [2, 5/4]]
    expected_value := BaseOut.arr [1/8, 1/16] }

/-- A variant explainer whose selected row carries an absolute-value tie
(`|2| = |-2|`), exercising stable ranking. -/
def exShapTie : ShapExplainer :=
  { shap_values := fun _ => ShapOut.perClass [[1/2, 3/4], [2, -2]]
    expected_value := BaseOut.arr [1/8, 1/16] }

def exModelPkg : ModelPkg := ⟨exModel, some exCols⟩

def exPrepPkg : PreprocessorPkg := ⟨exClasses, exScaler, exCols⟩

/-- The loader after a successful `initialize` with the packages above. -/
def exState : LoaderState :=
  ⟨some exModel, some exPrepPkg, some exCols, some exClasses, some exScaler⟩

/-- `exState` with the no-`predict_proba` classifier. -/
def exStateNoProba : LoaderState :=
  ⟨some exModelNoProba, some exPrepPkg, some exCols, some exClasses, some exScaler⟩

/-- A complete request record. -/
def exRecord : FeatureRecord := [("f1", 1), ("f2", 2)]

/-- A record missing schema field `"f1"` and carrying an unknown field `"zz"`. -/
def exRecordMissing : FeatureRecord := [("f2", 5), ("zz", 9)]

/-! ## Helper lemmas -/

theorem ratAbs_eq_abs (q : ℚ) : ratAbs q = |q| := by
  unfold ratAbs
  rcases lt_or_le q 0 with h | h
  · rw [if_pos h, abs_of_neg h]
  · rw [if_neg (not_lt.mpr h), abs_of_nonneg h]

theorem except_bind_ok {ε α β : Type} (x : Except ε α) (f : α → Except ε β) (b : β) :
    (x >>= f) = Except.ok b ↔ ∃ a, x = Except.ok a ∧ f a = Except.ok b := by
  cases x <;> simp [Bind.bind, Except.bind]

/-! ## C2 — threat tiering -/

/-- C2: Threat tiering is a deterministic total function of label and confidence
(`_get_threat_level` is a pure Lean function, hence total and deterministic on
every label and confidence): for every confidence in `[0,1]`, label `BENIGN`
maps to `NONE`; any other label maps to `CRITICAL` when confidence `≥ 0.9`,
`HIGH` when `0.7 ≤ confidence < 0.9`, `MEDIUM` when `0.5 ≤ confidence < 0.7`,
and `LOW` otherwise, the boundary values `0.9`, `0.7`, `0.5` landing in the
higher tier. -/
theorem get_threat_level_tiering (label : String) (confidence : ℚ)
    (h0 : 0 ≤ confidence) (h1 : confidence ≤ 1) :
    (label = "BENIGN" → get_threat_level label confidence = "NONE") ∧
    (label ≠ "BENIGN" →
      (9/10 ≤ confidence → get_threat_level label confidence = "CRITICAL") ∧
      (7/10 ≤ confidence → confidence < 9/10 →
        get_threat_level label confidence = "HIGH") ∧
      (5/10 ≤ confidence → confidence < 7/10 →
        get_threat_level label confidence = "MEDIUM") ∧
      (confidence < 5/10 → get_threat_level label confidence = "LOW")) := by
  unfold get_threat_level
  constructor
  · intro h
    rw [if_pos h]
  · intro h
    rw [if_neg h]
    refine ⟨fun h9 => ?_, fun h7 h9 => ?_, fun h5 h7 => ?_, fun h5 => ?_⟩
    · rw [if_pos h9]
    · rw [if_neg (not_le.mpr h9), if_pos h7]
    · rw [if_neg (not_le.mpr (lt_of_lt_of_le h7 (by norm_num))),
        if_neg (not_le.mpr h7), if_pos h5]
    · rw [if_neg (not_le.mpr (lt_of_lt_of_le h5 (by norm_num))),
        if_neg (not_le.mpr (lt_of_lt_of_le h5 (by norm_num))),
        if_neg (not_le.mpr h5)]

/-- Witness for C2 at label `"DoS"`, confidence `9/10` (a boundary value). -/
theorem get_threat_level_tiering_witness :
    ("DoS" = "BENIGN" → get_threat_level "DoS" (9/10) = "NONE") ∧
    ("DoS" ≠ "BENIGN" →
      (9/10 ≤ (9/10 : ℚ) → get_threat_level "DoS" (9/10) = "CRITICAL") ∧
      (7/10 ≤ (9/10 : ℚ) → (9/10 : ℚ) < 9/10 →
        get_threat_level "DoS" (9/10) = "HIGH") ∧
      (5/10 ≤ (9/10 : ℚ) → (9/10 : ℚ) < 7/10 →
        get_threat_level "DoS" (9/10) = "MEDIUM") ∧
      ((9/10 : ℚ) < 5/10 → get_threat_level "DoS" (9/10) = "LOW")) :=
  get_threat_level_tiering "DoS" (9/10) (by norm_num) (by norm_num)

theorem except_ok_bind {ε α β : Type} (a : α) (f : α → Except ε β) :
    (Except.ok a : Except ε α) >>= f = f a := rfl

theorem except_error_bind {ε α β : Type} (e : ε) (f : α → Except ε β) :
    (Except.error e : Except ε α) >>= f = Except.error e := rfl

theorem except_pure {ε α : Type} (a : α) : (pure a : Except ε α) = Except.ok a := rfl

theorem npMaxAux_spec (x : ℚ) (l : List ℚ) :
    (npMaxAux x l = x ∨ npMaxAux x l ∈ l) ∧
      x ≤ npMaxAux x l ∧ ∀ y ∈ l, y ≤ npMaxAux x l := by
  induction l generalizing x with
  | nil => exact ⟨Or.inl rfl, le_refl x, by simp⟩
  | cons y ys ih =>
    obtain ⟨hmem, hle, hall⟩ := ih (if x ≤ y then y else x)
    have hxle : x ≤ if x ≤ y then y else x := by
      by_cases hxy : x ≤ y
      · rw [if_pos hxy]; exact hxy
      · rw [if_neg hxy]
    have hyle : y ≤ if x ≤ y then y else x := by
      by_cases hxy : x ≤ y
      · rw [if_pos hxy]
      · rw [if_neg hxy]; exact le_of_lt (not_le.mp hxy)
    refine ⟨?_, le_trans hxle hle, ?_⟩
    · show npMaxAux (if x ≤ y then y else x) ys = x ∨
        npMaxAux (if x ≤ y then y else x) ys ∈ y :: ys
      rcases hmem with hm | hm
      · by_cases hxy : x ≤ y
        · rw [if_pos hxy] at hm ⊢
          exact Or.inr (by rw [hm]; exact List.mem_cons_self y ys)
        · rw [if_neg hxy] at hm ⊢
          exact Or.inl hm
      · exact Or.inr (List.mem_cons_of_mem y hm)
    · intro z hz
      rcases List.mem_cons.mp hz with rfl | hz
      · exact le_trans hyle hle
      · exact hall z hz

/-! ## C3 — confidence and probability map of `predict` -/

/-- C3: when the classifier exposes `predict_proba`, `predict` returns a
confidence that is the maximum of the probability vector (an element of it that
bounds every entry, exactly `np.max`) and a probability map that zips the
codec's ordered class names with the vector in codec order; when probabilities
are unavailable, it returns the valid result with confidence exactly `1.0` and
an empty probability map, not an error — the second conjunct shows the degraded
path of a loaded state `s2` whose classifier `m2` has no `predict_proba`
returning `Except.ok` outright (with only the decode of the predicted index in
the codec's range as precondition), with confidence `1.0` and empty map. -/
theorem predict_confidence_probabilities (s : LoaderState) (feats : FeatureRecord)
    (m : Model) (classes : List String) (X : List ℚ)
    (p : String) (c : ℚ) (probs : List (String × ℚ))
    (s2 : LoaderState) (feats2 : FeatureRecord) (m2 : Model)
    (classes2 : List String) (X2 : List ℚ) (lbl : String)
    (hm : s._model = some m) (hcls : s._label_encoder = some classes)
    (hX : prepare_features s feats = Except.ok X)
    (h : predict s feats = Except.ok (p, c, probs))
    (hm2 : s2._model = some m2) (hpp2 : m2.predictProba = none)
    (hcls2 : s2._label_encoder = some classes2)
    (hX2 : prepare_features s2 feats2 = Except.ok X2)
    (hdecode : classes2[m2.predictIdx X2]? = some lbl) :
    (match m.predictProba with
    | some proba_fn =>
        c ∈ proba_fn X ∧ (∀ y ∈ proba_fn X, y ≤ c) ∧ probs = classes.zip (proba_fn X)
    | none => c = 1 ∧ probs = []) ∧
    predict s2 feats2 = Except.ok (lbl, (1 : ℚ), []) := by
  refine ⟨?_, ?_⟩
  case refine_2 =>
    simp only [predict, hX2, except_ok_bind, get_model, hm2, hpp2,
      get_label_encoder, hcls2, inverse_transform, hdecode, except_pure]
  cases hpp : m.predictProba with
  | some proba_fn =>
    simp only [predict, hX, except_ok_bind, get_model, hm, hpp,
      get_label_encoder, hcls] at h
    show c ∈ proba_fn X ∧ (∀ y ∈ proba_fn X, y ≤ c) ∧ probs = classes.zip (proba_fn X)
    cases hpx : proba_fn X with
    | nil =>
      rw [hpx] at h
      simp only [npMax, except_error_bind] at h
      exact absurd h (by simp)
    | cons x xs =>
      rw [hpx] at h
      simp only [npMax, except_ok_bind] at h
      cases hgt : classes[m.predictIdx X]? with
      | none =>
        simp only [inverse_transform, hgt, except_error_bind] at h
        exact absurd h (by simp)
      | some lbl =>
        simp only [inverse_transform, hgt, except_ok_bind, except_pure,
          Except.ok.injEq, Prod.mk.injEq] at h
        obtain ⟨hp, hc, hprobs⟩ := h
        obtain ⟨hmem, _, hall⟩ := npMaxAux_spec x xs
        subst hc
        refine ⟨?_, ?_, by rw [← hprobs]⟩
        · rcases hmem with hh | hh
          · rw [hh]; exact List.mem_cons_self x xs
          · exact List.mem_cons_of_mem x hh
        · intro y hy
          rcases List.mem_cons.mp hy with rfl | hy
          · exact (npMaxAux_spec y xs).2.1
          · exact hall y hy
  | none =>
    simp only [predict, hX, except_ok_bind, get_model, hm, hpp,
      get_label_encoder, hcls] at h
    show c = 1 ∧ probs = []
    cases hgt : classes[m.predictIdx X]? with
    | none =>
      simp only [inverse_transform, hgt, except_error_bind] at h
      exact absurd h (by simp)
    | some lbl =>
      simp only [inverse_transform, hgt, except_ok_bind, except_pure,
        Except.ok.injEq, Prod.mk.injEq] at h
      exact ⟨h.2.1.symm, h.2.2.symm⟩

-- Witness for C3: the probabilities-available branch on `exState` (whose
-- classifier has `predict_proba`) and the degraded branch on `exStateNoProba`
-- (whose classifier lacks it), both at the request `exRecord`.
unseal Rat.add Rat.mul Rat.sub Rat.inv in
theorem predict_confidence_probabilities_witness :
    ((3/4 : ℚ) ∈ [(1/4 : ℚ), 3/4] ∧ (∀ y ∈ [(1/4 : ℚ), 3/4], y ≤ 3/4) ∧
      [("BENIGN", (1/4 : ℚ)), ("DoS", 3/4)] = exClasses.zip [(1/4 : ℚ), 3/4]) ∧
    predict exStateNoProba exRecord = Except.ok ("DoS", (1 : ℚ), []) :=
  predict_confidence_probabilities exState exRecord exModel exClasses [1, 2]
    "DoS" (3/4) [("BENIGN", 1/4), ("DoS", 3/4)]
    exStateNoProba exRecord exModelNoProba exClasses [1, 2] "DoS"
    rfl rfl (by decide) (by decide) rfl rfl rfl (by decide) (by decide)

/-! ## C4 — feature reconciliation -/

theorem lookup_filter_mem (cols : List String) (feats : List (String × ℚ))
    (c : String) (hc : c ∈ cols) :
    (feats.filter (fun q => decide (q.1 ∈ cols))).lookup c = feats.lookup c := by
  induction feats with
  | nil => rfl
  | cons q fs ih =>
    by_cases hqc : c = q.1
    · have hq : q.1 ∈ cols := by rw [← hqc]; exact hc
      have hbeq : (c == q.1) = true := beq_iff_eq.mpr hqc
      simp [List.filter_cons, hq, List.lookup, hbeq]
    · have hbeq : (c == q.1) = false := beq_eq_false_iff_ne.mpr hqc
      by_cases hq : q.1 ∈ cols
      · simp [List.filter_cons, hq, List.lookup, hbeq, ih]
      · simp [List.filter_cons, hq, List.lookup, hbeq, ih]

/-- C4: with a loaded schema and scaler, `prepare_features` never aborts on a
missing field: it returns the scaler applied to the vector that lists, in schema
order, the record's value for each schema name with `0` substituted where the
name is absent; every slot whose schema name is missing from the record holds
`0` before scaling and scales to exactly what scaling `0.0` in that position
produces (`(0 - mean_i) / scale_i`); and fields of the record that are not in
the schema are dropped — restricting the record to schema names leaves the
result unchanged. -/
theorem prepare_features_reconciliation (s : LoaderState) (feats : FeatureRecord)
    (cols : List String) (sc : Scaler)
    (hcols : s._feature_columns = some cols) (hsc : s._scaler = some sc) :
    prepare_features s feats =
      Except.ok (sc.transform (cols.map (fun c => ((feats.lookup c).getD 0)))) ∧
    (∀ (i : ℕ) (name : String), cols[i]? = some name → feats.lookup name = none →
      (cols.map (fun c => ((feats.lookup c).getD 0)))[i]? = some (0 : ℚ) ∧
      ∀ (mi si : ℚ), sc.mean[i]? = some mi → sc.scale[i]? = some si →
        (sc.transform (cols.map (fun c => ((feats.lookup c).getD 0))))[i]? =
          some ((0 - mi) / si)) ∧
    prepare_features s (feats.filter (fun q => decide (q.1 ∈ cols))) =
      prepare_features s feats := by
  have hmain : ∀ fs : FeatureRecord, prepare_features s fs =
      Except.ok (sc.transform (cols.map (fun c => ((fs.lookup c).getD 0)))) := by
    intro fs
    simp only [prepare_features, get_feature_columns, hcols, except_ok_bind,
      get_scaler, hsc, except_pure]
  refine ⟨hmain feats, ?_, ?_⟩
  · intro i name hci hmiss
    have hrec : (cols.map (fun c => ((feats.lookup c).getD 0)))[i]? = some 0 := by
      rw [List.getElem?_map, hci]
      simp [hmiss]
    refine ⟨hrec, ?_⟩
    intro mi si hmi hsi
    have hzip : (sc.mean.zip sc.scale)[i]? = some (mi, si) :=
      List.getElem?_zip_eq_some.mpr ⟨hmi, hsi⟩
    rw [Scaler.transform, List.getElem?_zipWith, hrec, hzip]
  · rw [hmain feats, hmain (feats.filter (fun q => decide (q.1 ∈ cols)))]
    have hmap : cols.map
        (fun c => (((feats.filter (fun q => decide (q.1 ∈ cols))).lookup c).getD 0)) =
        cols.map (fun c => ((feats.lookup c).getD 0)) :=
      List.map_congr_left (fun c hc => by rw [lookup_filter_mem cols feats c hc])
    rw [hmap]

-- Witness for C4 at the record `exRecordMissing`, which is missing schema
-- field `"f1"` and carries the unknown field `"zz"`.
theorem prepare_features_reconciliation_witness :
    prepare_features exState exRecordMissing =
      Except.ok (exScaler.transform
        (exCols.map (fun c => ((exRecordMissing.lookup c).getD 0)))) ∧
    (∀ (i : ℕ) (name : String), exCols[i]? = some name →
      exRecordMissing.lookup name = none →
      (exCols.map (fun c => ((exRecordMissing.lookup c).getD 0)))[i]? = some (0 : ℚ) ∧
      ∀ (mi si : ℚ), exScaler.mean[i]? = some mi → exScaler.scale[i]? = some si →
        (exScaler.transform (exCols.map (fun c => ((exRecordMissing.lookup c).getD 0))))[i]? =
          some ((0 - mi) / si)) ∧
    prepare_features exState (exRecordMissing.filter (fun q => decide (q.1 ∈ exCols))) =
      prepare_features exState exRecordMissing :=
  prepare_features_reconciliation exState exRecordMissing exCols exScaler rfl rfl

/-! ## C8 — requests before and after a successful load -/

/-- C8: an artifact accessor fails with the not-loaded `ValueError` whenever its
half is not loaded (`get_model` on a state without a model, cf.
`get_feature_columns` on a state without a schema), so a prediction requested
before any load fails with that error; after `load_model` and
`load_preprocessor` succeed on the fresh process state, the identical request
succeeds (under the artifact contracts: the classifier's predicted index is in
the codec's range and `predict_proba`, when present, returns a non-empty
vector). -/
theorem predict_before_after_load (s1 s2 : LoaderState) (feats : FeatureRecord)
    (mp : ModelPkg) (pp : PreprocessorPkg)
    (hm1 : s1._model = none) (hf2 : s2._feature_columns = none)
    (hidx : ∀ X : List ℚ, mp.model.predictIdx X < pp.label_encoder.length)
    (hpb : ∀ g, mp.model.predictProba = some g → ∀ X : List ℚ, g X ≠ []) :
    get_model s1 = Except.error PyErr.notLoaded ∧
    get_feature_columns s2 = Except.error PyErr.notLoaded ∧
    predict initialState feats = Except.error PyErr.notLoaded ∧
    exceptOk (predict (load_preprocessor (load_model initialState mp) pp) feats) =
      true := by
  refine ⟨by rw [get_model, hm1], by rw [get_feature_columns, hf2], ?_, ?_⟩
  · simp [predict, prepare_features, get_feature_columns, initialState,
      except_error_bind]
  · obtain ⟨cols, hS⟩ : ∃ cols : List String,
        load_preprocessor (load_model initialState mp) pp =
          ⟨some mp.model, some pp, some cols, some pp.label_encoder,
            some pp.scaler⟩ := by
      simp only [load_model, initialState, Option.isSome_none, Bool.false_eq_true,
        if_false, load_preprocessor, feature_columns_falsy]
      split
      · exact ⟨pp.feature_columns, rfl⟩
      · exact ⟨mp.feature_columns.getD [], rfl⟩
    rw [hS]
    have hprep : prepare_features
        ⟨some mp.model, some pp, some cols, some pp.label_encoder, some pp.scaler⟩
          feats =
        Except.ok (pp.scaler.transform (cols.map (fun c => ((feats.lookup c).getD 0)))) := by
      simp only [prepare_features, get_feature_columns, except_ok_bind, get_scaler,
        except_pure]
    cases hg : mp.model.predictProba with
    | some g =>
      simp only [predict, hprep, except_ok_bind, get_model, get_label_encoder, hg]
      obtain ⟨x, xs, hx⟩ := List.exists_cons_of_ne_nil
        (hpb g hg (pp.scaler.transform (cols.map (fun c => ((feats.lookup c).getD 0)))))
      rw [hx]
      simp only [npMax, except_ok_bind, inverse_transform]
      rw [List.getElem?_eq_getElem (hidx _)]
      rfl
    | none =>
      simp only [predict, hprep, except_ok_bind, get_model, get_label_encoder, hg,
        inverse_transform]
      rw [List.getElem?_eq_getElem (hidx _)]
      rfl

-- Witness for C8: the not-yet-loaded halves on `initialState`, then the
-- concrete packages `exModelPkg`/`exPrepPkg` and the request `exRecord`.
unseal Rat.add Rat.mul Rat.sub Rat.inv in
theorem predict_before_after_load_witness :
    get_model initialState = Except.error PyErr.notLoaded ∧
    get_feature_columns initialState = Except.error PyErr.notLoaded ∧
    predict initialState exRecord = Except.error PyErr.notLoaded ∧
    exceptOk (predict (load_preprocessor (load_model initialState exModelPkg)
      exPrepPkg) exRecord) = true :=
  predict_before_after_load initialState initialState exRecord exModelPkg exPrepPkg
    rfl rfl (fun _ => by norm_num [exModelPkg, exModel, exPrepPkg, exClasses])
    (fun g hg X => by
      have hgx : g X = [1/4, 3/4] := by
        have : (fun (_ : List ℚ) => [(1 : ℚ)/4, 3/4]) = g := by
          simpa [exModelPkg, exModel] using hg
        rw [← this]
      rw [hgx]
      simp)

/-! ## C9 — batch prediction -/

/-- C9: `batch_predict` is a total function returning one `(label, confidence)`
pair per input record — the output has exactly the input's length, position by
position the pair of a successful `predict`, and the sentinel `("ERROR", 0.0)`
exactly where `predict` raised, without aborting the remaining records (being a
total Lean function of type `List _ → List _`, it raises nothing itself). -/
theorem batch_predict_length_sentinel (s : LoaderState) (fl : List FeatureRecord) :
    (batch_predict s fl).length = fl.length ∧
    ∀ i : ℕ, (batch_predict s fl)[i]? = (fl[i]?).map (fun feats =>
      match predict s feats with
      | Except.ok r => (r.1, r.2.1)
      | Except.error _ => ("ERROR", (0 : ℚ))) := by
  unfold batch_predict
  refine ⟨List.length_map _ _, fun i => ?_⟩
  rw [List.getElem?_map]

/-! ## C10 — visualization split into positive and negative features -/

/-- C10: in the visualization-shaped output, `positive_features` is exactly the
top-N entries with impact strictly greater than `0` and `negative_features`
exactly those with impact strictly less than `0`; a top-N entry with impact
exactly `0` lands in neither subset; the two subsets are disjoint; and each is a
sublist of the top-N list, preserving its ranked order. -/
theorem viz_positive_negative_split (s : LoaderState)
    (explainer : Option ShapExplainer) (feats : FeatureRecord) (top_n : Int)
    (e : ExplanationOut) (v : VizData)
    (he : explain_prediction s explainer feats top_n = Except.ok e)
    (hv : explain_with_visualization_data s explainer feats top_n = Except.ok v) :
    v.positive_features = e.top_features.filter (fun f => 0 < f.2) ∧
    v.negative_features = e.top_features.filter (fun f => f.2 < 0) ∧
    (∀ f ∈ e.top_features, f.2 = 0 →
      f ∉ v.positive_features ∧ f ∉ v.negative_features) ∧
    (∀ f : Attr, f ∈ v.positive_features → f ∈ v.negative_features → False) ∧
    v.positive_features.Sublist e.top_features ∧
    v.negative_features.Sublist e.top_features := by
  simp only [explain_with_visualization_data, he, except_ok_bind, except_pure,
    Except.ok.injEq] at hv
  subst hv
  refine ⟨rfl, rfl, ?_, ?_, List.filter_sublist _, List.filter_sublist _⟩
  · intro f _ h0
    constructor
    · intro hmem
      have := (List.mem_filter.mp hmem).2
      rw [h0] at this
      simp at this
    · intro hmem
      have := (List.mem_filter.mp hmem).2
      rw [h0] at this
      simp at this
  · intro f h1 h2
    have hp := of_decide_eq_true (List.mem_filter.mp h1).2
    have hn := of_decide_eq_true (List.mem_filter.mp h2).2
    exact absurd hp (not_lt.mpr (le_of_lt hn))

-- Witness for C10: the concrete deployment at `exRecord`, `top_n = 2`.
unseal Rat.add Rat.mul Rat.sub Rat.inv in
theorem viz_positive_negative_split_witness :
    (VizData.mk "DoS" (3/4) ["f1", "f2"] [2, 5/4] [1, 2] (1/16)
        [("f1", 2), ("f2", 5/4)] []).positive_features =
      (ExplanationOut.mk "DoS" (3/4) [("f1", 2), ("f2", 5/4)] (1/16)
        [("f1", 2), ("f2", 5/4)]).top_features.filter (fun f => 0 < f.2) ∧
    (VizData.mk "DoS" (3/4) ["f1", "f2"] [2, 5/4] [1, 2] (1/16)
        [("f1", 2), ("f2", 5/4)] []).negative_features =
      (ExplanationOut.mk "DoS" (3/4) [("f1", 2), ("f2", 5/4)] (1/16)
        [("f1", 2), ("f2", 5/4)]).top_features.filter (fun f => f.2 < 0) ∧
    (∀ f ∈ (ExplanationOut.mk "DoS" (3/4) [("f1", 2), ("f2", 5/4)] (1/16)
        [("f1", 2), ("f2", 5/4)]).top_features, f.2 = 0 →
      f ∉ (VizData.mk "DoS" (3/4) ["f1", "f2"] [2, 5/4] [1, 2] (1/16)
        [("f1", 2), ("f2", 5/4)] []).positive_features ∧
      f ∉ (VizData.mk "DoS" (3/4) ["f1", "f2"] [2, 5/4] [1, 2] (1/16)
        [("f1", 2), ("f2", 5/4)] []).negative_features) ∧
    (∀ f : Attr,
      f ∈ (VizData.mk "DoS" (3/4) ["f1", "f2"] [2, 5/4] [1, 2] (1/16)
        [("f1", 2), ("f2", 5/4)] []).positive_features →
      f ∈ (VizData.mk "DoS" (3/4) ["f1", "f2"] [2, 5/4] [1, 2] (1/16)
        [("f1", 2), ("f2", 5/4)] []).negative_features → False) ∧
    (VizData.mk "DoS" (3/4) ["f1", "f2"] [2, 5/4] [1, 2] (1/16)
        [("f1", 2), ("f2", 5/4)] []).positive_features.Sublist
      (ExplanationOut.mk "DoS" (3/4) [("f1", 2), ("f2", 5/4)] (1/16)
        [("f1", 2), ("f2", 5/4)]).top_features ∧
    (VizData.mk "DoS" (3/4) ["f1", "f2"] [2, 5/4] [1, 2] (1/16)
        [("f1", 2), ("f2", 5/4)] []).negative_features.Sublist
      (ExplanationOut.mk "DoS" (3/4) [("f1", 2), ("f2", 5/4)] (1/16)
        [("f1", 2), ("f2", 5/4)]).top_features :=
  viz_positive_negative_split exState (some exShap) exRecord 2
    (ExplanationOut.mk "DoS" (3/4) [("f1", 2), ("f2", 5/4)] (1/16)
      [("f1", 2), ("f2", 5/4)])
    (VizData.mk "DoS" (3/4) ["f1", "f2"] [2, 5/4] [1, 2] (1/16)
      [("f1", 2), ("f2", 5/4)] [])
    (by decide) (by decide)

/-! ## C6 — handling of out-of-range `top_n` -/

-- Counterexample for C6 as stated: on the concrete deployment the engine
-- accepts `top_n = 0` (non-positive) and `top_n = 99` (larger than the 2
-- available features) and returns successfully with a silently clamped slice,
-- instead of rejecting either request with an error.
unseal Rat.add Rat.mul Rat.sub Rat.inv in
theorem explain_topn_no_rejection_counterexample :
    explain_prediction exState (some exShap) exRecord 0 =
      Except.ok (ExplanationOut.mk "DoS" (3/4) [] (1/16)
        [("f1", 2), ("f2", 5/4)]) ∧
    explain_prediction exState (some exShap) exRecord 99 =
      Except.ok (ExplanationOut.mk "DoS" (3/4) [("f1", 2), ("f2", 5/4)] (1/16)
        [("f1", 2), ("f2", 5/4)]) ∧
    explain_prediction exState (some exShap) exRecord (-1) =
      Except.ok (ExplanationOut.mk "DoS" (3/4) [("f1", 2)] (1/16)
        [("f1", 2), ("f2", 5/4)]) := by
  refine ⟨by decide, by decide, by decide⟩

/-- C6 (amended): the engine itself performs no validation of `topN` — whenever
`explain_prediction` returns a result, its top list is the Python slice
`all_features[:topN]`: for `topN = 0` it is empty, for `topN` at least the
number of available entries it is the whole ranked list, and for negative
`topN` it is the ranked list without its last `|topN|` entries; rejection of
out-of-range values happens only in the transport layer
(`Query(10, ge=1, le=50)` in `routes/explain.py`). -/
theorem explain_topn_silently_clamps (s : LoaderState)
    (explainer : Option ShapExplainer) (feats : FeatureRecord) (top_n : Int)
    (e : ExplanationOut)
    (h : explain_prediction s explainer feats top_n = Except.ok e) :
    e.top_features = pyTake e.all_features top_n ∧
    (top_n = 0 → e.top_features = []) ∧
    ((e.all_features.length : Int) ≤ top_n → e.top_features = e.all_features) ∧
    (top_n < 0 →
      e.top_features = e.all_features.take (e.all_features.length - top_n.natAbs)) := by
  have hmain : e.top_features = pyTake e.all_features top_n := by
    cases explainer with
    | none => simp [explain_prediction, except_error_bind] at h
    | some ex =>
      simp only [explain_prediction, except_ok_bind] at h
      rw [except_bind_ok] at h
      obtain ⟨X, hX, h⟩ := h
      rw [except_bind_ok] at h
      obtain ⟨pcp, hpcp, h⟩ := h
      rw [except_bind_ok] at h
      obtain ⟨slice, hslice, h⟩ := h
      rw [except_bind_ok] at h
      obtain ⟨feature_names, hnames, h⟩ := h
      split at h
      · rw [except_pure, Except.ok.injEq] at h
        rw [← h]
      · exact absurd h (by simp)
  refine ⟨hmain, ?_, ?_, ?_⟩
  · intro h0
    rw [hmain, h0, pyTake, if_pos le_rfl, Int.toNat_zero, List.take_zero]
  · intro hbig
    have h0 : (0 : Int) ≤ top_n := le_trans (Int.ofNat_nonneg _) hbig
    rw [hmain, pyTake, if_pos h0]
    exact List.take_of_length_le ((Int.le_toNat h0).mpr hbig)
  · intro hneg
    rw [hmain, pyTake, if_neg (not_le.mpr hneg)]

-- Witness for the amended C6 at `top_n = 0` on the concrete deployment.
unseal Rat.add Rat.mul Rat.sub Rat.inv in
theorem explain_topn_silently_clamps_witness :
    (ExplanationOut.mk "DoS" (3/4) [] (1/16)
        [("f1", 2), ("f2", 5/4)]).top_features =
      pyTake (ExplanationOut.mk "DoS" (3/4) [] (1/16)
        [("f1", 2), ("f2", 5/4)]).all_features 0 ∧
    ((0 : Int) = 0 → (ExplanationOut.mk "DoS" (3/4) [] (1/16)
        [("f1", 2), ("f2", 5/4)]).top_features = []) ∧
    (((ExplanationOut.mk "DoS" (3/4) [] (1/16)
          [("f1", 2), ("f2", 5/4)]).all_features.length : Int) ≤ 0 →
      (ExplanationOut.mk "DoS" (3/4) [] (1/16)
          [("f1", 2), ("f2", 5/4)]).top_features =
        (ExplanationOut.mk "DoS" (3/4) [] (1/16)
          [("f1", 2), ("f2", 5/4)]).all_features) ∧
    ((0 : Int) < 0 →
      (ExplanationOut.mk "DoS" (3/4) [] (1/16)
          [("f1", 2), ("f2", 5/4)]).top_features =
        (ExplanationOut.mk "DoS" (3/4) [] (1/16)
          [("f1", 2), ("f2", 5/4)]).all_features.take
          ((ExplanationOut.mk "DoS" (3/4) [] (1/16)
            [("f1", 2), ("f2", 5/4)]).all_features.length - (0 : Int).natAbs)) :=
  explain_topn_silently_clamps exState (some exShap) exRecord 0
    (ExplanationOut.mk "DoS" (3/4) [] (1/16) [("f1", 2), ("f2", 5/4)])
    (by decide)

/-! ## Forward computation of `explain_prediction` on the multi-class branch -/

theorem select_class_slice_perClass (s : LoaderState) (vs : List (List ℚ))
    (base : BaseOut) (p : String) (classes : List String) (bs : List ℚ)
    (svc : List ℚ) (bv : ℚ)
    (hcls : s._label_encoder = some classes) (hp : p ∈ classes)
    (hvc : vs[classes.indexOf p]? = some svc)
    (hbase : base = BaseOut.arr bs)
    (hbv : bs[classes.indexOf p]? = some bv) :
    select_class_slice s (ShapOut.perClass vs) base p = Except.ok (svc, bv) := by
  subst hbase
  simp only [select_class_slice, get_label_encoder, hcls, except_ok_bind,
    list_index, if_pos hp, hvc, hbv, except_pure]

theorem explain_prediction_perClass_eq (s : LoaderState) (ex : ShapExplainer)
    (feats : FeatureRecord) (top_n : Int) (X : List ℚ) (p : String) (c : ℚ)
    (probs : List (String × ℚ)) (classes names : List String)
    (vs : List (List ℚ)) (bs : List ℚ) (svc : List ℚ) (bv : ℚ)
    (hX : prepare_features s feats = Except.ok X)
    (hpred : predict s feats = Except.ok (p, c, probs))
    (hcls : s._label_encoder = some classes)
    (hnames : s._feature_columns = some names)
    (hsv : ex.shap_values X = ShapOut.perClass vs)
    (hbase : ex.expected_value = BaseOut.arr bs)
    (hp : p ∈ classes)
    (hvc : vs[classes.indexOf p]? = some svc)
    (hbv : bs[classes.indexOf p]? = some bv)
    (hlen : names.length ≤ svc.length) :
    explain_prediction s (some ex) feats top_n =
      Except.ok (ExplanationOut.mk p c
        (pyTake (List.insertionSort absDesc (names.zip svc)) top_n) bv
        (List.insertionSort absDesc (names.zip svc))) := by
  have hsel := select_class_slice_perClass s vs ex.expected_value p classes bs svc
    bv hcls hp hvc hbase hbv
  simp only [explain_prediction, except_ok_bind, hX, hpred, hsv, hsel,
    get_feature_columns, hnames, if_pos hlen, except_pure]

/-! ## C5 — class-slice selection by codec index -/

/-- C5: on the multi-class branch, the class-index lookup (`list.index` on the
codec's class list) fails with an error — never a silent fall-back to class 0 —
whenever the looked-up label is absent from the codec, and `explain_prediction`
selects both the attribution row and the per-class baseline entry at the
codec's index `classes.indexOf p` of the predicted label (the hypotheses pin
`svc`/`bv` to the entries at that index), not at a raw array position. -/
theorem explain_selects_codec_index (s : LoaderState) (ex : ShapExplainer)
    (feats : FeatureRecord) (top_n : Int) (X : List ℚ) (p : String) (c : ℚ)
    (probs : List (String × ℚ)) (classes names : List String)
    (vs : List (List ℚ)) (bs : List ℚ) (svc : List ℚ) (bv : ℚ)
    (hX : prepare_features s feats = Except.ok X)
    (hpred : predict s feats = Except.ok (p, c, probs))
    (hcls : s._label_encoder = some classes)
    (hnames : s._feature_columns = some names)
    (hsv : ex.shap_values X = ShapOut.perClass vs)
    (hbase : ex.expected_value = BaseOut.arr bs)
    (hp : p ∈ classes)
    (hvc : vs[classes.indexOf p]? = some svc)
    (hbv : bs[classes.indexOf p]? = some bv)
    (hlen : names.length ≤ svc.length) :
    (∀ lbl : String, lbl ∉ classes →
      list_index classes lbl = Except.error PyErr.valueError) ∧
    (∀ lbl : String, lbl ∉ classes →
      select_class_slice s (ShapOut.perClass vs) ex.expected_value lbl =
        Except.error PyErr.valueError) ∧
    list_index classes p = Except.ok (classes.indexOf p) ∧
    explain_prediction s (some ex) feats top_n =
      Except.ok (ExplanationOut.mk p c
        (pyTake (List.insertionSort absDesc (names.zip svc)) top_n) bv
        (List.insertionSort absDesc (names.zip svc))) := by
  refine ⟨?_, ?_, ?_, explain_prediction_perClass_eq s ex feats top_n X p c probs
    classes names vs bs svc bv hX hpred hcls hnames hsv hbase hp hvc hbv hlen⟩
  · intro lbl hl
    rw [list_index, if_neg hl]
  · intro lbl hl
    simp only [select_class_slice, get_label_encoder, hcls, except_ok_bind,
      list_index, if_neg hl, except_error_bind]
  · rw [list_index, if_pos hp]

-- Witness for C5 on the concrete deployment: the absent label half is
-- exercised by any label outside `exClasses` (e.g. `"Zeus"`), the selection
-- half at the predicted label `"DoS"` with codec index 1.
unseal Rat.add Rat.mul Rat.sub Rat.inv in
theorem explain_selects_codec_index_witness :
    (∀ lbl : String, lbl ∉ exClasses →
      list_index exClasses lbl = Except.error PyErr.valueError) ∧
    (∀ lbl : String, lbl ∉ exClasses →
      select_class_slice exState (ShapOut.perClass [[1/2, 3/4], [2, 5/4]])
        exShap.expected_value lbl = Except.error PyErr.valueError) ∧
    list_index exClasses "DoS" = Except.ok (exClasses.indexOf "DoS") ∧
    explain_prediction exState (some exShap) exRecord 1 =
      Except.ok (ExplanationOut.mk "DoS" (3/4)
        (pyTake (List.insertionSort absDesc (exCols.zip [2, 5/4])) 1) (1/16)
        (List.insertionSort absDesc (exCols.zip [2, 5/4]))) :=
  explain_selects_codec_index exState exShap exRecord 1 [1, 2] "DoS" (3/4)
    [("BENIGN", 1/4), ("DoS", 3/4)] exClasses exCols [[1/2, 3/4], [2, 5/4]]
    [1/8, 1/16] [2, 5/4] (1/16) (by decide) (by decide) rfl rfl rfl rfl
    (by decide) (by decide) (by decide) (by decide)

/-! ## C7 — ranking: sorted, stable, truncation, exclusion bound -/

theorem filter_absKey_orderedInsert (k : ℚ) (a : Attr) (l : List Attr) :
    (List.orderedInsert absDesc a l).filter (fun x => ratAbs x.2 == k) =
      if ratAbs a.2 == k then a :: l.filter (fun x => ratAbs x.2 == k)
      else l.filter (fun x => ratAbs x.2 == k) := by
  induction l with
  | nil =>
    rw [List.orderedInsert_nil, List.filter_cons, List.filter_nil]
  | cons b l ih =>
    by_cases hab : absDesc a b
    · rw [List.orderedInsert, if_pos hab, List.filter_cons]
    · have hlt : ratAbs a.2 < ratAbs b.2 := not_le.mp hab
      rw [List.orderedInsert, if_neg hab, List.filter_cons, ih, List.filter_cons]
      by_cases hpa : (ratAbs a.2 == k) = true
      · have hpb : (ratAbs b.2 == k) = false := by
          rw [beq_eq_false_iff_ne]
          intro hbk
          exact absurd hlt (by rw [beq_iff_eq.mp hpa, hbk]; exact lt_irrefl k)
        simp [hpa, hpb]
      · simp only [Bool.not_eq_true] at hpa
        by_cases hpb : (ratAbs b.2 == k) = true
        · simp [hpa, hpb]
        · simp only [Bool.not_eq_true] at hpb
          simp [hpa, hpb]

theorem filter_absKey_insertionSort (k : ℚ) (l : List Attr) :
    (List.insertionSort absDesc l).filter (fun x => ratAbs x.2 == k) =
      l.filter (fun x => ratAbs x.2 == k) := by
  induction l with
  | nil => rfl
  | cons a l ih =>
    rw [List.insertionSort, filter_absKey_orderedInsert, ih, List.filter_cons]

theorem explain_prediction_eq_of_slice (s : LoaderState) (ex : ShapExplainer)
    (feats : FeatureRecord) (top_n : Int) (X : List ℚ) (p : String) (c : ℚ)
    (probs : List (String × ℚ)) (names : List String) (svc : List ℚ) (bv : ℚ)
    (hX : prepare_features s feats = Except.ok X)
    (hpred : predict s feats = Except.ok (p, c, probs))
    (hnames : s._feature_columns = some names)
    (hslice : select_class_slice s (ex.shap_values X) ex.expected_value p =
      Except.ok (svc, bv))
    (hlen : names.length ≤ svc.length) :
    explain_prediction s (some ex) feats top_n =
      Except.ok (ExplanationOut.mk p c
        (pyTake (List.insertionSort absDesc (names.zip svc)) top_n) bv
        (List.insertionSort absDesc (names.zip svc))) := by
  simp only [explain_prediction, except_ok_bind, hX, hpred, hslice,
    get_feature_columns, hnames, if_pos hlen, except_pure]

/-- C7: whatever `explain_prediction` returns (on either attribution-output
shape — the hypotheses pin the selected contribution row `svc`), its full
attribution list is a permutation of the schema-ordered pairing `names.zip svc`
sorted by descending absolute impact (`Sorted absDesc`), with ties left in
original schema order (for every key, filtering the ranked list to that
absolute impact reproduces the schema-ordered sublist — a stable sort); and for
a valid non-negative `topN` the top list is exactly the first `topN` entries of
the ranked list, every excluded entry having absolute impact at most that of
every included one. -/
theorem explain_ranking_stability (s : LoaderState) (ex : ShapExplainer)
    (feats : FeatureRecord) (top_n : Int) (X : List ℚ) (p : String) (c : ℚ)
    (probs : List (String × ℚ)) (names : List String) (svc : List ℚ) (bv : ℚ)
    (e : ExplanationOut)
    (hX : prepare_features s feats = Except.ok X)
    (hpred : predict s feats = Except.ok (p, c, probs))
    (hnames : s._feature_columns = some names)
    (hslice : select_class_slice s (ex.shap_values X) ex.expected_value p =
      Except.ok (svc, bv))
    (hlen : names.length ≤ svc.length)
    (h : explain_prediction s (some ex) feats top_n = Except.ok e) :
    e.all_features.Perm (names.zip svc) ∧
    List.Sorted absDesc e.all_features ∧
    (∀ k : ℚ, e.all_features.filter (fun x => ratAbs x.2 == k) =
      (names.zip svc).filter (fun x => ratAbs x.2 == k)) ∧
    (0 ≤ top_n →
      e.top_features = e.all_features.take top_n.toNat ∧
      ∀ x ∈ e.all_features.drop top_n.toNat, ∀ y ∈ e.top_features,
        ratAbs x.2 ≤ ratAbs y.2) := by
  rw [explain_prediction_eq_of_slice s ex feats top_n X p c probs names svc bv
    hX hpred hnames hslice hlen, Except.ok.injEq] at h
  subst h
  have hsorted : List.Sorted absDesc (List.insertionSort absDesc (names.zip svc)) :=
    List.sorted_insertionSort absDesc (names.zip svc)
  refine ⟨List.perm_insertionSort absDesc (names.zip svc), hsorted,
    fun k => filter_absKey_insertionSort k (names.zip svc), fun hn => ?_⟩
  constructor
  · show pyTake (List.insertionSort absDesc (names.zip svc)) top_n = _
    rw [pyTake, if_pos hn]
  · intro x hx y hy
    show absDesc y x
    rw [pyTake, if_pos hn] at hy
    exact hsorted.rel_of_mem_take_of_mem_drop hy hx

-- Witness for C7 on the tie-carrying explainer `exShapTie` (`|2| = |-2|`),
-- `top_n = 1`.
unseal Rat.add Rat.mul Rat.sub Rat.inv in
theorem explain_ranking_stability_witness :
    (ExplanationOut.mk "DoS" (3/4) [("f1", 2)] (1/16)
        [("f1", 2), ("f2", -2)]).all_features.Perm (exCols.zip [2, -2]) ∧
    List.Sorted absDesc (ExplanationOut.mk "DoS" (3/4) [("f1", 2)] (1/16)
        [("f1", 2), ("f2", -2)]).all_features ∧
    (∀ k : ℚ, (ExplanationOut.mk "DoS" (3/4) [("f1", 2)] (1/16)
        [("f1", 2), ("f2", -2)]).all_features.filter (fun x => ratAbs x.2 == k) =
      (exCols.zip [2, -2]).filter (fun x => ratAbs x.2 == k)) ∧
    ((0 : Int) ≤ 1 →
      (ExplanationOut.mk "DoS" (3/4) [("f1", 2)] (1/16)
          [("f1", 2), ("f2", -2)]).top_features =
        (ExplanationOut.mk "DoS" (3/4) [("f1", 2)] (1/16)
          [("f1", 2), ("f2", -2)]).all_features.take (1 : Int).toNat ∧
      ∀ x ∈ (ExplanationOut.mk "DoS" (3/4) [("f1", 2)] (1/16)
          [("f1", 2), ("f2", -2)]).all_features.drop (1 : Int).toNat,
        ∀ y ∈ (ExplanationOut.mk "DoS" (3/4) [("f1", 2)] (1/16)
          [("f1", 2), ("f2", -2)]).top_features,
          ratAbs x.2 ≤ ratAbs y.2) :=
  explain_ranking_stability exState exShapTie exRecord 1 [1, 2] "DoS" (3/4)
    [("BENIGN", 1/4), ("DoS", 3/4)] exCols [2, -2] (1/16)
    (ExplanationOut.mk "DoS" (3/4) [("f1", 2)] (1/16) [("f1", 2), ("f2", -2)])
    (by decide) (by decide) rfl (by decide) (by decide) (by decide)

/-! ## C1 — additivity of the explanation -/

/-- C1: assuming the attribution backend satisfies the Shapley additivity
contract for the loaded classifier (for every class `j`, baseline entry `j`
plus the sum of attribution row `j` equals the model's raw score for class `j`
on the explained vector — the guarantee `shap.TreeExplainer` provides), every
explanation `explain_prediction` returns on the multi-class branch satisfies
it too: its selected baseline plus the sum of the impacts over the full
attribution list equals the model's raw output score for the predicted class —
exactly in this rational-arithmetic model, hence in particular within the
claimed relative tolerance `1e-4`. -/
theorem explain_additivity (s : LoaderState) (ex : ShapExplainer)
    (feats : FeatureRecord) (top_n : Int) (X : List ℚ) (p : String) (c : ℚ)
    (probs : List (String × ℚ)) (classes names : List String)
    (vs : List (List ℚ)) (bs : List ℚ) (svc : List ℚ) (bv : ℚ)
    (m : Model) (e : ExplanationOut)
    (hm : s._model = some m)
    (hX : prepare_features s feats = Except.ok X)
    (hpred : predict s feats = Except.ok (p, c, probs))
    (hcls : s._label_encoder = some classes)
    (hnames : s._feature_columns = some names)
    (hsv : ex.shap_values X = ShapOut.perClass vs)
    (hbase : ex.expected_value = BaseOut.arr bs)
    (hp : p ∈ classes)
    (hvc : vs[classes.indexOf p]? = some svc)
    (hbv : bs[classes.indexOf p]? = some bv)
    (hlv : svc.length = names.length)
    (hadd : ∀ j : ℕ, j < vs.length →
      bs.getD j 0 + (vs.getD j []).sum = m.rawScore X j)
    (h : explain_prediction s (some ex) feats top_n = Except.ok e) :
    e.base_value + (e.all_features.map (fun f => f.2)).sum =
      m.rawScore X (classes.indexOf e.prediction) ∧
    |e.base_value + (e.all_features.map (fun f => f.2)).sum -
        m.rawScore X (classes.indexOf e.prediction)| ≤
      1/10000 * |m.rawScore X (classes.indexOf e.prediction)| := by
  rw [explain_prediction_perClass_eq s ex feats top_n X p c probs classes names
    vs bs svc bv hX hpred hcls hnames hsv hbase hp hvc hbv (le_of_eq hlv.symm),
    Except.ok.injEq] at h
  subst h
  dsimp only
  have hidxlt : classes.indexOf p < vs.length := by
    obtain ⟨hlt, -⟩ := List.getElem?_eq_some.mp hvc
    exact hlt
  have hsum : ((List.insertionSort absDesc (names.zip svc)).map
      (fun f => f.2)).sum = svc.sum := by
    have hperm : ((List.insertionSort absDesc (names.zip svc)).map
        (fun f => f.2)).Perm ((names.zip svc).map (fun f => f.2)) :=
      (List.perm_insertionSort absDesc (names.zip svc)).map _
    rw [hperm.sum_eq]
    have hz : (names.zip svc).map (fun f => f.2) = svc :=
      List.map_snd_zip names svc (le_of_eq hlv)
    rw [hz]
  have hbase_eq : bs.getD (classes.indexOf p) 0 = bv := by
    rw [List.getD_eq_getElem?_getD, hbv]
    rfl
  have hv_eq : vs.getD (classes.indexOf p) [] = svc := by
    rw [List.getD_eq_getElem?_getD, hvc]
    rfl
  have heq : bv + ((List.insertionSort absDesc (names.zip svc)).map
      (fun f => f.2)).sum = m.rawScore X (classes.indexOf p) := by
    have hj := hadd (classes.indexOf p) hidxlt
    rw [hbase_eq, hv_eq] at hj
    rw [hsum]
    exact hj
  refine ⟨heq, ?_⟩
  rw [heq, sub_self, abs_zero]
  exact mul_nonneg (by norm_num) (abs_nonneg _)

-- Witness for C1 on the concrete deployment, whose explainer is exactly
-- additive for `exModel.rawScore` on both classes.
unseal Rat.add Rat.mul Rat.sub Rat.inv in
theorem explain_additivity_witness :
    (ExplanationOut.mk "DoS" (3/4) [("f1", 2), ("f2", 5/4)] (1/16)
        [("f1", 2), ("f2", 5/4)]).base_value +
      ((ExplanationOut.mk "DoS" (3/4) [("f1", 2), ("f2", 5/4)] (1/16)
        [("f1", 2), ("f2", 5/4)]).all_features.map (fun f => f.2)).sum =
      exModel.rawScore [1, 2] (exClasses.indexOf
        (ExplanationOut.mk "DoS" (3/4) [("f1", 2), ("f2", 5/4)] (1/16)
          [("f1", 2), ("f2", 5/4)]).prediction) ∧
    |(ExplanationOut.mk "DoS" (3/4) [("f1", 2), ("f2", 5/4)] (1/16)
        [("f1", 2), ("f2", 5/4)]).base_value +
      ((ExplanationOut.mk "DoS" (3/4) [("f1", 2), ("f2", 5/4)] (1/16)
        [("f1", 2), ("f2", 5/4)]).all_features.map (fun f => f.2)).sum -
        exModel.rawScore [1, 2] (exClasses.indexOf
          (ExplanationOut.mk "DoS" (3/4) [("f1", 2), ("f2", 5/4)] (1/16)
            [("f1", 2), ("f2", 5/4)]).prediction)| ≤
      1/10000 * |exModel.rawScore [1, 2] (exClasses.indexOf
        (ExplanationOut.mk "DoS" (3/4) [("f1", 2), ("f2", 5/4)] (1/16)
          [("f1", 2), ("f2", 5/4)]).prediction)| :=
  explain_additivity exState exShap exRecord 2 [1, 2] "DoS" (3/4)
    [("BENIGN", 1/4), ("DoS", 3/4)] exClasses exCols [[1/2, 3/4], [2, 5/4]]
    [1/8, 1/16] [2, 5/4] (1/16) exModel
    (ExplanationOut.mk "DoS" (3/4) [("f1", 2), ("f2", 5/4)] (1/16)
      [("f1", 2), ("f2", 5/4)])
    rfl (by decide) (by decide) rfl rfl rfl rfl (by decide) (by decide)
    (by decide) (by decide) (by decide) (by decide)
